import Mathlib

set_option maxHeartbeats 1000000
set_option maxRecDepth 8192

namespace LnnblogSync

/-!
Verification development for the lnnblog-sync bot.  The definitions below
are a shallow embedding of the reconciliation core of the script in
src/unnamed/part_000: the change-event reducer (lines 288-318), the
exclusion filter (lines 320-335), the derived move list (lines 344-347),
the XML minor-flag post-processing (lines 369-377), the paginated query
fetcher apiQueryListAll (lines 152-184), the api error/assertion wrapper
(lines 100-142), and the overall run pipeline with its watermark writes
(lines 241-524).
-/

/-- One entry of the recentchanges feed, as destructured at lines 292-300
of the script.  Fields `targetTitle` and `suppressredirect` stand for
`logparams.target_title` and `logparams.suppressredirect`, read only in
the move branch. -/
structure ChangeEvent where
  type : String
  title : String
  pageid : Nat
  minor : Bool
  logtype : String
  logaction : String
  targetTitle : String
  suppressredirect : Bool
deriving Repr, DecidableEq

/-- The value stored in the `pages` map: `{ oldTitle?, minor }`
(line 288). -/
structure PageInfo where
  oldTitle : Option String
  minor : Bool
deriving Repr, DecidableEq

/-- The `pages` map, modelled as an insertion-ordered association list,
matching the iteration order of a JavaScript `Map`. -/
abbrev PageMap := List (String × PageInfo)

/-- `Map.prototype.get`. -/
def mapGet {β : Type} (m : List (String × β)) (k : String) : Option β :=
  match m with
  | [] => none
  | (k1, v) :: rest => if k1 = k then some v else mapGet rest k

/-- `Map.prototype.set`: update in place when the key exists (keeping its
insertion position), append otherwise. -/
def mapSet {β : Type} (m : List (String × β)) (k : String) (v : β) :
    List (String × β) :=
  match m with
  | [] => [(k, v)]
  | (k1, v1) :: rest =>
      if k1 = k then (k1, v) :: rest else (k1, v1) :: mapSet rest k v

/-- `Map.prototype.delete`. -/
def mapDelete {β : Type} (m : List (String × β)) (k : String) :
    List (String × β) :=
  m.filter (fun p => p.1 ≠ k)

/-- State threaded through the reducer loop: the `pages` map and the
`fileIds` map (lines 288-291). -/
structure ReduceState where
  pages : PageMap
  fileIds : List (String × Nat)
deriving Repr, DecidableEq

/-- One iteration of the `for (const ... of changes)` loop
(lines 301-317).  The upload branch is a no-op because the line
`fileIds.set(title, pageid)` is commented out in the source
(line 315). -/
def step (s : ReduceState) (e : ChangeEvent) : ReduceState :=
  if e.type = "new" ∨ e.type = "edit" then
    match mapGet s.pages e.title with
    | some info =>
        let v : PageInfo := { info with minor := info.minor && e.minor }
        { s with pages := mapSet s.pages e.title v }
    | none =>
        let v : PageInfo := { oldTitle := none, minor := e.minor }
        { s with pages := mapSet s.pages e.title v }
  else if e.type = "log" then
    if e.logtype = "delete" ∧ e.logaction = "delete" then
      { s with pages := mapDelete s.pages e.title }
    else if e.logtype = "move" then
      let dflt : PageInfo := { oldTitle := some e.title, minor := true }
      let info := (mapGet s.pages e.title).getD dflt
      let p1 := mapSet s.pages e.targetTitle info
      let redir : PageInfo := { oldTitle := none, minor := false }
      let p2 :=
        if e.suppressredirect then mapDelete p1 e.title
        else mapSet p1 e.title redir
      { s with pages := p2 }
    else s
  else s

/-- The whole reducer: fold the ordered change-event stream into the
final state (lines 288-318). -/
def reduceChanges (evs : List ChangeEvent) : ReduceState :=
  evs.foldl step { pages := [], fileIds := [] }

/-- Truthiness test for the recorded oldTitle, as used by
`oldTitle && ...` in the script (an absent or empty oldTitle is
falsy). -/
def oldTitleTruthy (i : PageInfo) : Bool :=
  match i.oldTitle with
  | some o => o ≠ ""
  | none => false

/-- The exclusion filter over the pages map (lines 321-329): drop each
entry whose current title, or whose truthy recorded oldTitle, is in the
excluded set. -/
def excludeFilter (excluded : List String) (m : PageMap) : PageMap :=
  m.filter fun p =>
    !(excluded.contains p.1 ||
      (oldTitleTruthy p.2 && excluded.contains (p.2.oldTitle.getD "")))

/-- The exclusion filter over the fileIds map (lines 330-335). -/
def fileFilter (excluded : List String) (l : List (String × Nat)) :
    List (String × Nat) :=
  l.filter fun p => !(excluded.contains p.1)

/-- The derived move list (lines 344-347): entries whose oldTitle is
truthy and differs from the current title, mapped to
`(oldTitle, title)` pairs. -/
def movesOf (m : PageMap) : List (String × String) :=
  (m.filter fun p => oldTitleTruthy p.2 && p.1 ≠ p.2.oldTitle.getD "").map
    fun p => (p.2.oldTitle.getD "", p.1)

/-- The export title list: `[...pages.keys()]` (line 365). -/
def exportTitles (m : PageMap) : List String :=
  m.map fun p => p.1

/-- A `new` event. -/
def newEv (t : String) (m : Bool) : ChangeEvent :=
  { type := "new", title := t, pageid := 0, minor := m, logtype := "",
    logaction := "", targetTitle := "", suppressredirect := false }

/-- An `edit` event. -/
def editEv (t : String) (m : Bool) : ChangeEvent :=
  { type := "edit", title := t, pageid := 0, minor := m, logtype := "",
    logaction := "", targetTitle := "", suppressredirect := false }

/-- A `log`/`move` event. -/
def moveEv (src dst : String) (suppress : Bool) : ChangeEvent :=
  { type := "log", title := src, pageid := 0, minor := false,
    logtype := "move", logaction := "move", targetTitle := dst,
    suppressredirect := suppress }

/-- A `log`/`delete` event. -/
def deleteEv (t : String) : ChangeEvent :=
  { type := "log", title := t, pageid := 0, minor := false,
    logtype := "delete", logaction := "delete", targetTitle := "",
    suppressredirect := false }

/-- A `log`/`upload` event. -/
def uploadEv (t : String) (pid : Nat) : ChangeEvent :=
  { type := "log", title := t, pageid := pid, minor := false,
    logtype := "upload", logaction := "upload", targetTitle := "",
    suppressredirect := false }

/-!
XML post-processing (lines 369-377 of the script):

  xmlExport.replace(/<title>\s*(.*?)\s*<\/title>.*?<\/revision>/gs,
    (str, title) =>
      pages.get(title)?.minor === false
        ? str.replace(/\s*<minor\s*\/>/, "") : str)

The outer global regex matches, at each leftmost position, the text from
a literal `<title>` through the first following `</title>` and then the
first following `</revision>`; the captured title is the inter-tag text
with surrounding whitespace trimmed.  The inner replace (no `g` flag)
removes only the first occurrence of whitespace followed by a
`<minor/>` tag inside the matched block.
-/

/-- JavaScript `\s` on the ASCII range. -/
def isWs (c : Char) : Bool :=
  c = ' ' || c = '\t' || c = '\n' || c = '\r' || c = '\x0b' || c = '\x0c'

/-- Split a character list at the first occurrence of a pattern:
`splitFirst pat s = some (a, b)` when `s = a ++ pat ++ b` and `a`
contains no earlier occurrence. -/
def splitFirst (pat : List Char) : List Char → Option (List Char × List Char)
  | [] => if pat.isPrefixOf [] then some ([], []) else none
  | c :: cs =>
      if pat.isPrefixOf (c :: cs) then some ([], (c :: cs).drop pat.length)
      else (splitFirst pat cs).map fun pr => (c :: pr.1, pr.2)

/-- Trim surrounding JavaScript whitespace, as the regex
`\s*(.*?)\s*` capture does. -/
def trimWs (s : List Char) : List Char :=
  ((s.dropWhile isWs).reverse.dropWhile isWs).reverse

/-- Match the outer regex at the current position: on success, return
the whole matched block, the captured (trimmed) title, and the rest of
the input after the block. -/
def matchTitleBlock (s : List Char) : Option (List Char × List Char × List Char) :=
  if "<title>".data.isPrefixOf s then
    match splitFirst "</title>".data (s.drop 7) with
    | none => none
    | some (raw, s2) =>
        match splitFirst "</revision>".data s2 with
        | none => none
        | some (mid, rest) =>
            some ("<title>".data ++ raw ++ "</title>".data ++ mid ++
              "</revision>".data, trimWs raw, rest)
  else none

/-- Match the inner regex `\s*<minor\s*\/>` at the current position,
returning the remaining input after the match. -/
def matchMinorAt (s : List Char) : Option (List Char) :=
  let s1 := s.dropWhile isWs
  if "<minor".data.isPrefixOf s1 then
    let s2 := (s1.drop 6).dropWhile isWs
    if "/>".data.isPrefixOf s2 then some (s2.drop 2) else none
  else none

/-- `str.replace(/\s*<minor\s*\/>/, "")`: remove the first occurrence
only. -/
def removeFirstMinor (s : List Char) : List Char :=
  match s with
  | [] => []
  | c :: cs =>
      match matchMinorAt (c :: cs) with
      | some rest => rest
      | none => c :: removeFirstMinor cs

/-- The replacer callback (lines 372-376): strip the first minor marker
of the block when the page is known to be non-minor overall. -/
def processChunk (m : PageMap) (title chunk : List Char) : List Char :=
  match mapGet m (String.mk title) with
  | some info => if info.minor then chunk else removeFirstMinor chunk
  | none => chunk

/-- The global regex scan with replacement, fuelled by the input length
(each step consumes at least one character, so the wrapper's fuel is
never exhausted). -/
def xmlFixGo (m : PageMap) : Nat → List Char → List Char
  | 0, s => s
  | _ + 1, [] => []
  | n + 1, c :: cs =>
      match matchTitleBlock (c :: cs) with
      | some (chunk, title, rest) =>
          processChunk m title chunk ++ xmlFixGo m n rest
      | none => c :: xmlFixGo m n cs

/-- The whole `xmlExport.replace(...)` post-processing step
(lines 370-377). -/
def xmlFix (m : PageMap) (s : String) : String :=
  String.mk (xmlFixGo m (s.data.length + 1) s.data)

/-!
API boundary model.  The script's `api` helper (lines 100-142) throws an
APIError when the response carries a non-empty `errors` array or when a
supplied assertion rejects the data; otherwise it returns the data.
Transport failures and the run pipeline's own TypeErrors are modelled as
`Except.error` values as well, with distinct messages.
-/

/-- One HTTP response body as seen by `api`: the application-level
`errors` array plus the payload consumed by the caller. -/
structure ApiResp (α : Type) where
  errors : List String
  data : α
deriving Repr, DecidableEq

/-- The error/assertion checks of `api` (lines 127-138). -/
def apiM {α : Type} (r : ApiResp α) (assertion : α → Bool) :
    Except String α :=
  if r.errors.length ≠ 0 then Except.error "API call errored"
  else if !assertion r.data then Except.error "API action failed"
  else Except.ok r.data

/-- The two responses consumed by `apiLogin` (lines 192-239): the login
token fetch and the login action, whose payload is the
`login.result` string. -/
structure LoginEnv where
  tokenResp : ApiResp String
  loginResp : ApiResp String
deriving Repr, DecidableEq

/-- `apiLogin`: fetch a token, then log in, asserting
`login.result === "Success"` (line 237). -/
def apiLogin (e : LoginEnv) : Except String String := do
  let _tok ← apiM e.tokenResp fun _ => true
  apiM e.loginResp fun r => r == "Success"

/-- One page of a continued query response, as consumed by
`apiQueryListAll` (lines 152-184): `query` is absent or the merged
list-typed payload, `contin` is `data.continue?.continue`, and
`curtimestamp` is the server clock reading attached to this same
response. -/
structure QueryPage (α : Type) where
  errors : List String
  query : Option α
  contin : Option String
  curtimestamp : Option String
deriving Repr, DecidableEq

/-- The value produced by `apiQueryListAll`: how many requests were
issued, the accumulated `query` results (undefined when the first page
had none), and the `curtimestamp` of the last response received. -/
structure AqlaResult (α : Type) where
  requests : Nat
  query : Option α
  curtimestamp : Option String
deriving Repr, DecidableEq

/-- The do/while loop of `apiQueryListAll` (lines 158-178): fetch a
page, break when it has no `query` key, otherwise merge and continue
while `data.continue?.continue` is a string.  Running out of supplied
pages models a transport failure. -/
def aqlaGo {α : Type} (merge : α → α → α) (acc : Option α) (n : Nat) :
    List (QueryPage α) → Except String (AqlaResult α)
  | [] => Except.error "transport error"
  | p :: ps =>
      if p.errors.length ≠ 0 then Except.error "API call errored"
      else
        match p.query with
        | none => Except.ok ⟨n + 1, acc, p.curtimestamp⟩
        | some q =>
            let acc2 := some (match acc with
              | none => q
              | some a => merge a q)
            if p.contin.isSome then aqlaGo merge acc2 (n + 1) ps
            else Except.ok ⟨n + 1, acc2, p.curtimestamp⟩

/-- `apiQueryListAll` over a supplied sequence of server responses. -/
def apiQueryListAll {α : Type} (merge : α → α → α)
    (pages : List (QueryPage α)) : Except String (AqlaResult α) :=
  aqlaGo merge none 0 pages

/-!
Run pipeline model (lines 241-524).  All server responses a run can
consume are supplied up front in a `RunEnv`; the pipeline consumes them
in the order the script issues requests.
-/

/-- All responses a run may consume, in script order: optional source
login (lines 241-249), excluded-category fetch (lines 251-268),
recentchanges fetch (lines 270-286), export (lines 356-368), file-url
fetch (lines 380-401), target login (lines 403-409), CSRF token fetch
(lines 411-422), one response per move request (lines 424-444), and
the final XML submission request (lines 446-465). -/
structure RunEnv where
  srcLogin : Option LoginEnv
  excludedResp : List (QueryPage (List String))
  rcResp : List (QueryPage (List ChangeEvent))
  exportResp : ApiResp String
  fileUrlsResp : ApiResp (List (String × String))
  tgtLogin : LoginEnv
  csrfResp : ApiResp String
  moveResps : List (ApiResp Unit)
  importResp : ApiResp Unit
deriving Repr, DecidableEq

/-- Observable outcome of a successful run: the value written to
`~lastsync`, the move requests attempted (with whether each succeeded),
the XML submitted to the import action if any, and whether the run took
the early nothing-to-do exit (lines 338-342). -/
structure RunOutput where
  watermark : Option String
  movesAttempted : List ((String × String) × Bool)
  importedXml : Option String
  noop : Bool
deriving Repr, DecidableEq

/-- The move loop (lines 424-444): every pair in the move list is
attempted in order, consuming one server response each; each response's
error is caught (`.catch(console.error)`) so failures are recorded but
never abort the loop. -/
def moveLoop (resps : List (ApiResp Unit)) :
    List (String × String) → List ((String × String) × Bool)
  | [] => []
  | mv :: tl =>
      (mv, (apiM (resps.headD { errors := [], data := () })
        fun _ => true).isOk) :: moveLoop resps.tail tl

/-- Logging in to the source site is skipped when no credentials are
configured (lines 241-249). -/
def srcLoginStep (env : RunEnv) : Except String Unit :=
  match env.srcLogin with
  | some l => (apiLogin l).map fun _ => ()
  | none => Except.ok ()

/-- The script destructures `query.categorymembers` and
`query.recentchanges` out of the fetch results; when `query` is absent
this raises a TypeError that aborts the run. -/
def destructure {α : Type} (q : Option α) : Except String α :=
  match q with
  | some a => Except.ok a
  | none => Except.error "TypeError: cannot destructure undefined"

/-- Everything up to and including the recentchanges fetch: optional
source login, excluded-title fetch, log fetch.  Returns the exclusion
set, the event list, and `syncTime` (the `curtimestamp` destructured
from the same response as the final change-log page, line 273). -/
def fetchPhase (env : RunEnv) :
    Except String (List String × List ChangeEvent × Option String) := do
  let _ ← srcLoginStep env
  let exq ← apiQueryListAll (fun a b => a ++ b) env.excludedResp
  let excluded ← destructure exq.query
  let rcq ← apiQueryListAll (fun a b => a ++ b) env.rcResp
  let changes ← destructure rcq.query
  pure (excluded, changes, rcq.curtimestamp)

/-- The export request and XML patching (lines 356-378): only issued
when the surviving pages map is non-empty, otherwise `xmlExport` stays
the empty string. -/
def exportStep (env : RunEnv) (pages : PageMap) : Except String String :=
  if pages.isEmpty then Except.ok ""
  else (apiM env.exportResp fun _ => true).map fun raw => xmlFix pages raw

/-- The file-url fetch (lines 380-401): only issued when the surviving
fileIds map is non-empty (which, the upload branch being disabled, it
never is). -/
def fileStep (env : RunEnv) (fids : List (String × Nat)) :
    Except String Unit :=
  if !fids.isEmpty then (apiM env.fileUrlsResp fun _ => true).map fun _ => ()
  else Except.ok ()

/-- The import request (lines 446-465): only issued when the patched
XML is a non-empty (truthy) string. -/
def importStep (env : RunEnv) (xml : String) :
    Except String (Option String) :=
  if xml ≠ "" then (apiM env.importResp fun _ => true).map fun _ => some xml
  else Except.ok none

/-- Everything after the fetches (lines 288-524): reduce, filter, early
exit when nothing is to do (lines 338-342), export and patch the XML,
fetch file urls, log in to the target, fetch a CSRF token, attempt every
move with per-move errors caught, import when the XML is non-empty, and
record the watermark value written to `~lastsync` (lines 340 and 523,
both writing `syncTime`). -/
def actionPhase (env : RunEnv) (excluded : List String)
    (changes : List ChangeEvent) (syncTime : Option String) :
    Except String RunOutput := do
  let st := reduceChanges changes
  let pages := excludeFilter excluded st.pages
  let fids := fileFilter excluded st.fileIds
  if pages.isEmpty && fids.isEmpty then
    Except.ok ⟨syncTime, [], none, true⟩
  else do
    let moves := movesOf pages
    let xml ← exportStep env pages
    let _ ← fileStep env fids
    let _ ← apiLogin env.tgtLogin
    let _csrf ← apiM env.csrfResp fun _ => true
    let attempted := moveLoop env.moveResps moves
    let imported ← importStep env xml
    Except.ok ⟨syncTime, attempted, imported, false⟩

/-- The whole run (lines 241-524): the fetch phase followed by the
action phase. -/
def runSync (env : RunEnv) : Except String RunOutput := do
  let fetched ← fetchPhase env
  actionPhase env fetched.1 fetched.2.1 fetched.2.2

/-- Forget the per-move success flags of an output, keeping which moves
were attempted. -/
def stripFlags (o : RunOutput) : RunOutput :=
  { o with movesAttempted := o.movesAttempted.map fun p => (p.1, true) }

/-! Helper lemmas about the map operations. -/

theorem mapGet_mapSet {β : Type} (m : List (String × β)) (k t : String)
    (v : β) :
    mapGet (mapSet m k v) t = if k = t then some v else mapGet m t := by
  induction m with
  | nil =>
      by_cases h : k = t <;> simp [mapGet, mapSet, h]
  | cons hd tl ih =>
      obtain ⟨k1, v1⟩ := hd
      by_cases h1 : k1 = k
      · subst h1
        by_cases h : k1 = t <;> simp [mapGet, mapSet, h]
      · by_cases h : k1 = t
        · subst h
          have hkt : ¬k = k1 := fun hh => h1 hh.symm
          simp [mapGet, mapSet, h1, hkt]
        · simp [mapGet, mapSet, h1, h, ih]

theorem mapGet_mapDelete {β : Type} (m : List (String × β)) (k t : String) :
    mapGet (mapDelete m k) t = if k = t then none else mapGet m t := by
  induction m with
  | nil =>
      by_cases h : k = t <;> simp [mapGet, mapDelete, h]
  | cons hd tl ih =>
      obtain ⟨k1, v1⟩ := hd
      by_cases h1 : k1 = k
      · subst h1
        by_cases h : k1 = t
        · subst h
          simpa [mapGet, mapDelete] using ih
        · simpa [mapGet, mapDelete, h] using ih
      · by_cases h : k1 = t
        · subst h
          have hkt : ¬k = k1 := fun hh => h1 hh.symm
          simp [mapGet, mapDelete, h1, hkt]
        · simpa [mapGet, mapDelete, h1, h] using ih

theorem step_fileIds (s : ReduceState) (e : ChangeEvent) :
    (step s e).fileIds = s.fileIds := by
  unfold step
  repeat' split
  all_goals rfl

theorem foldl_step_fileIds (evs : List ChangeEvent) (s : ReduceState) :
    (evs.foldl step s).fileIds = s.fileIds := by
  induction evs generalizing s with
  | nil => rfl
  | cons e tl ih => rw [List.foldl_cons, ih, step_fileIds]

/-! Claim C1. -/

/-- The event sequence of claim C1. -/
def c1Events : List ChangeEvent := [newEv "A" true, moveEv "A" "B" true]

/-- The pending map produced for claim C1's events, after the exclusion
filter with the empty exclusion set. -/
def c1Pages : PageMap := excludeFilter [] (reduceChanges c1Events).pages

/-- C1 counterexample: on events new(A, minor) then move(A→B, suppress)
with no exclusions, the code does NOT produce the pending map
B ↦ (oldTitle A, minor true) with move list [(A, B)]: the `new` event
inserted an entry without an oldTitle, the move transfers that entry
unchanged, so no oldTitle is recorded and the move list is empty. -/
theorem c1_spec_scenario_fails :
    ¬((reduceChanges c1Events).pages =
        [("B", { oldTitle := some "A", minor := true })] ∧
      movesOf c1Pages = [("A", "B")]) := by
  decide

/-- C1 (amended): on events new(A, minor) then move(A→B, suppress) with
no exclusions, the pending map is exactly B ↦ (no oldTitle, minor true),
the derived move list is empty, and the title A appears in no pending
entry (neither as key nor as recorded oldTitle), in no move pair, and in
no export title. -/
theorem c1_end_to_end :
    (reduceChanges c1Events).pages =
      [("B", { oldTitle := none, minor := true })] ∧
    movesOf c1Pages = [] ∧
    (∀ p ∈ c1Pages, p.1 ≠ "A" ∧ p.2.oldTitle ≠ some "A") ∧
    (∀ q ∈ movesOf c1Pages, q.1 ≠ "A" ∧ q.2 ≠ "A") ∧
    "A" ∉ exportTitles c1Pages := by
  decide

/-! Claim C5. -/

/-- C5 counterexample: a log/upload event for title F with page id 5 is
NOT recorded in the file-upload map, because the recording line is
commented out in the source (line 315). -/
theorem c5_upload_not_recorded :
    ("F", 5) ∉ (reduceChanges [uploadEv "F" 5]).fileIds := by
  decide

/-- C5 (amended): the upload branch of the reducer is a no-op — the
`fileIds.set(title, pageid)` call is commented out in the source — so
after reduction the file-upload map is empty for every event
sequence. -/
theorem c5_fileIds_always_empty (evs : List ChangeEvent) :
    (reduceChanges evs).fileIds = [] := by
  simpa using foldl_step_fileIds evs { pages := [], fileIds := [] }

/-! Claim C7: behaviour of the minor flag under new/edit events. -/

theorem step_newedit_get_ne (s : ReduceState) (e : ChangeEvent)
    (he : e.type = "new" ∨ e.type = "edit") (t : String)
    (hne : e.title ≠ t) :
    mapGet (step s e).pages t = mapGet s.pages t := by
  unfold step
  rw [if_pos he]
  cases h : mapGet s.pages e.title with
  | some info => simp [mapGet_mapSet, hne]
  | none => simp [mapGet_mapSet, hne]

theorem step_newedit_get_some (s : ReduceState) (e : ChangeEvent)
    (he : e.type = "new" ∨ e.type = "edit") (i : PageInfo)
    (h : mapGet s.pages e.title = some i) :
    mapGet (step s e).pages e.title =
      some { i with minor := i.minor && e.minor } := by
  unfold step
  rw [if_pos he, h]
  simp [mapGet_mapSet]

theorem step_newedit_get_none (s : ReduceState) (e : ChangeEvent)
    (he : e.type = "new" ∨ e.type = "edit")
    (h : mapGet s.pages e.title = none) :
    mapGet (step s e).pages e.title =
      some { oldTitle := none, minor := e.minor } := by
  unfold step
  rw [if_pos he, h]
  simp [mapGet_mapSet]

/-- Under new/edit events only, an entry already marked non-minor stays
non-minor: the `info.minor &&= !!minor` update can never turn false back
into true. -/
theorem minor_false_persists (evs : List ChangeEvent)
    (hne : ∀ e ∈ evs, e.type = "new" ∨ e.type = "edit")
    (t : String) :
    ∀ s : ReduceState,
      (∃ i, mapGet s.pages t = some i ∧ i.minor = false) →
      ∃ i, mapGet (evs.foldl step s).pages t = some i ∧ i.minor = false := by
  induction evs with
  | nil => intro s h; simpa using h
  | cons e tl ih =>
      intro s h
      obtain ⟨i, hi, hm⟩ := h
      have he := hne e (by simp)
      have htl : ∀ x ∈ tl, x.type = "new" ∨ x.type = "edit" :=
        fun x hx => hne x (by simp [hx])
      rw [List.foldl_cons]
      apply ih htl
      by_cases heq : e.title = t
      · subst heq
        refine ⟨{ i with minor := i.minor && e.minor }, ?_, ?_⟩
        · exact step_newedit_get_some s e he i hi
        · simp [hm]
      · exact ⟨i, by rw [step_newedit_get_ne s e he t heq]; exact hi, hm⟩

/-- Under new/edit events only, once some event for a title carries
minor=false, the title's final pending entry has minor=false. -/
theorem minor_false_hits (evs : List ChangeEvent)
    (hne : ∀ e ∈ evs, e.type = "new" ∨ e.type = "edit")
    (t : String) (e0 : ChangeEvent) (h0 : e0 ∈ evs)
    (ht : e0.title = t) (hm : e0.minor = false) :
    ∀ s : ReduceState,
      ∃ i, mapGet (evs.foldl step s).pages t = some i ∧ i.minor = false := by
  induction evs with
  | nil => cases h0
  | cons e tl ih =>
      intro s
      have he := hne e (by simp)
      have htl : ∀ x ∈ tl, x.type = "new" ∨ x.type = "edit" :=
        fun x hx => hne x (by simp [hx])
      rw [List.foldl_cons]
      rcases List.mem_cons.mp h0 with h0e | h0tl
      · subst h0e
        subst ht
        apply minor_false_persists tl htl
        cases hg : mapGet s.pages e0.title with
        | some i =>
            refine ⟨{ i with minor := i.minor && e0.minor }, ?_, ?_⟩
            · exact step_newedit_get_some s e0 he i hg
            · simp [hm]
        | none =>
            refine ⟨{ oldTitle := none, minor := e0.minor }, ?_, hm⟩
            exact step_newedit_get_none s e0 he hg
      · exact ih htl h0tl (step s e)

/-- C7 (amended): for every event sequence consisting only of new/edit
events, a title with at least one minor and at least one non-minor
contributing event ends the reduction with minor=false in its pending
entry.  (The restriction to new/edit-only sequences is forced: a
delete/re-create or a move targeting the title resets its minor
flag.) -/
theorem c7_mixed_edits_end_nonminor (evs : List ChangeEvent) (t : String)
    (hne : ∀ e ∈ evs, e.type = "new" ∨ e.type = "edit")
    (hminor : ∃ e ∈ evs, e.title = t ∧ e.minor = true)
    (hmajor : ∃ e ∈ evs, e.title = t ∧ e.minor = false) :
    ∃ i, mapGet (reduceChanges evs).pages t = some i ∧ i.minor = false := by
  obtain ⟨e0, h0, ht, hm⟩ := hmajor
  exact minor_false_hits evs hne t e0 h0 ht hm { pages := [], fileIds := [] }

/-- Witness for C7: a concrete minor edit followed by a non-minor edit
of the same title yields a pending entry with minor=false. -/
theorem c7_witness :
    ∃ i, mapGet (reduceChanges [editEv "X" true, editEv "X" false]).pages
      "X" = some i ∧ i.minor = false :=
  c7_mixed_edits_end_nonminor [editEv "X" true, editEv "X" false] "X"
    (by decide) (by decide) (by decide)

/-- The event sequence refuting C7 as stated: a non-minor edit, then a
deletion, then a minor re-creation of the same title. -/
def c7CexEvents : List ChangeEvent :=
  [editEv "X" false, deleteEv "X", newEv "X" true]

/-- C7 counterexample: over all event sequences the claim fails — after
edit(X, non-minor), delete(X), new(X, minor) the title X had both a
minor and a non-minor contributing event, yet its final pending entry
has minor=true, because the delete erased the accumulated flag. -/
theorem c7_delete_resets_minor :
    (∃ e ∈ c7CexEvents, e.title = "X" ∧ e.minor = true) ∧
    (∃ e ∈ c7CexEvents, e.title = "X" ∧ e.minor = false) ∧
    ¬((mapGet (reduceChanges c7CexEvents).pages "X").map PageInfo.minor =
        some false) ∧
    (mapGet (reduceChanges c7CexEvents).pages "X").map PageInfo.minor =
      some true := by
  decide

/-! Claims C3 and C10: the exclusion filter and the derived moves. -/

/-- Every entry surviving the exclusion filter came from the input map,
has a non-excluded current title, and does not have a truthy excluded
oldTitle. -/
theorem excludeFilter_keeps (excluded : List String) (m : PageMap)
    (p : String × PageInfo) (hp : p ∈ excludeFilter excluded m) :
    p ∈ m ∧ excluded.contains p.1 = false ∧
      (oldTitleTruthy p.2 &&
        excluded.contains (p.2.oldTitle.getD "")) = false := by
  have h := List.mem_filter.mp hp
  refine ⟨h.1, ?_, ?_⟩
  · have h2 := h.2
    simp only [Bool.not_eq_true', Bool.or_eq_false_iff] at h2
    exact h2.1
  · have h2 := h.2
    simp only [Bool.not_eq_true', Bool.or_eq_false_iff] at h2
    exact h2.2

/-- C3: for every event sequence and exclusion set, no excluded title
appears in the final export title list, and no surviving pending entry
records an excluded (truthy) oldTitle. -/
theorem c3_excluded_titles_never_exported (evs : List ChangeEvent)
    (excluded : List String) (t : String) (h : t ∈ excluded) :
    t ∉ exportTitles (excludeFilter excluded (reduceChanges evs).pages) ∧
    ∀ p ∈ excludeFilter excluded (reduceChanges evs).pages,
      oldTitleTruthy p.2 = true → p.2.oldTitle ≠ some t := by
  constructor
  · intro hmem
    obtain ⟨p, hp, hpt⟩ := List.mem_map.mp hmem
    have hk := (excludeFilter_keeps excluded _ p hp).2.1
    rw [hpt] at hk
    exact absurd (List.elem_iff.mpr h) (by simpa [List.contains] using hk)
  · intro p hp htruthy hold
    have hk := (excludeFilter_keeps excluded _ p hp).2.2
    rw [htruthy, Bool.true_and, hold] at hk
    simp only [Option.getD_some] at hk
    exact absurd (List.elem_iff.mpr h) (by simpa [List.contains] using hk)

/-- Witness for C3: with events [edit X] and exclusion set containing X,
the title X is excluded and indeed absent from the export titles. -/
theorem c3_witness :
    "X" ∉ exportTitles
      (excludeFilter ["X"] (reduceChanges [editEv "X" false]).pages) ∧
    ∀ p ∈ excludeFilter ["X"] (reduceChanges [editEv "X" false]).pages,
      oldTitleTruthy p.2 = true → p.2.oldTitle ≠ some "X" :=
  c3_excluded_titles_never_exported [editEv "X" false] ["X"] "X"
    (by decide)

/-- C10: because the move list is derived from the already-filtered
pages map, every derived move pair has a non-excluded source, a
non-excluded destination, and distinct source and destination. -/
theorem c10_moves_respect_exclusions (evs : List ChangeEvent)
    (excluded : List String) (q : String × String)
    (hq : q ∈ movesOf (excludeFilter excluded (reduceChanges evs).pages)) :
    q.1 ∉ excluded ∧ q.2 ∉ excluded ∧ q.1 ≠ q.2 := by
  obtain ⟨p, hp, hpq⟩ := List.mem_map.mp hq
  have hf := List.mem_filter.mp hp
  have hcond := hf.2
  simp only [Bool.and_eq_true, decide_eq_true_eq] at hcond
  obtain ⟨htruthy, hneq⟩ := hcond
  have hk := excludeFilter_keeps excluded _ p hf.1
  have hk1 := hk.2.1
  have hk2 := hk.2.2
  rw [htruthy, Bool.true_and] at hk2
  subst hpq
  refine ⟨?_, ?_, ?_⟩
  · intro hmem
    exact absurd (List.elem_iff.mpr hmem) (by simpa [List.contains] using hk2)
  · intro hmem
    exact absurd (List.elem_iff.mpr hmem) (by simpa [List.contains] using hk1)
  · exact fun hcontra => hneq hcontra.symm

/-- Witness for C10: a single suppressed move A→B with no exclusions
yields the move pair (A, B), whose source and destination are not
excluded and differ. -/
theorem c10_witness :
    ("A", "B") ∈ movesOf
      (excludeFilter [] (reduceChanges [moveEv "A" "B" true]).pages) ∧
    ("A" ∉ ([] : List String) ∧ "B" ∉ ([] : List String) ∧
      ("A" : String) ≠ "B") :=
  ⟨by decide,
    c10_moves_respect_exclusions [moveEv "A" "B" true] [] ("A", "B")
      (by decide)⟩

/-! Claim C2: chained moves. -/

/-- The empty exclusion set filters nothing. -/
theorem excludeFilter_nil (m : PageMap) : excludeFilter [] m = m := by
  simp [excludeFilter]

/-- The event sequence refuting C2 as stated: the chain A→B→C preceded
by the creation of A inside the window. -/
def c2CexEvents : List ChangeEvent :=
  [newEv "A" true, moveEv "A" "B" true, moveEv "B" "C" true]

/-- C2 counterexample: the sequence new(A), move(A→B), move(B→C)
contains the move chain A→B→C with no intervening delete, yet the
derived move list is empty — in particular it does not contain (A, C).
The `new` event created A's entry without an oldTitle, and the two moves
transfer that entry unchanged, so no move pair is ever derived. -/
theorem c2_chain_after_new_gives_no_move :
    movesOf (excludeFilter [] (reduceChanges c2CexEvents).pages) = [] ∧
    ("A", "C") ∉
      movesOf (excludeFilter [] (reduceChanges c2CexEvents).pages) := by
  decide

/-- C2 (amended): for a window consisting of the move chain alone —
move(A→B) then move(B→C), with A, B, C pairwise distinct, A non-empty,
and any suppress-redirect flags — the derived move list contains exactly
the pair (A, C) and contains neither (A, B) nor (B, C).  (The
restriction that A's entry not pre-exist from a `new`/`edit` event is
forced by the counterexample.) -/
theorem c2_move_chain_collapses (A B C : String) (s1 s2 : Bool)
    (hA : A ≠ "") (hAB : A ≠ B) (hBC : B ≠ C) (hAC : A ≠ C) :
    movesOf (excludeFilter []
        (reduceChanges [moveEv A B s1, moveEv B C s2]).pages) =
      [(A, C)] ∧
    (A, B) ∉ movesOf (excludeFilter []
        (reduceChanges [moveEv A B s1, moveEv B C s2]).pages) ∧
    (B, C) ∉ movesOf (excludeFilter []
        (reduceChanges [moveEv A B s1, moveEv B C s2]).pages) := by
  rw [excludeFilter_nil]
  cases s1 <;> cases s2 <;>
    simp [reduceChanges, step, moveEv, mapGet, mapSet, mapDelete, movesOf,
      oldTitleTruthy, hA, hAB, hBC, hAC, Ne.symm hAB, Ne.symm hBC,
      Ne.symm hAC]

/-- Witness for C2: the amended theorem applied at the concrete chain
Alpha→Beta→Gamma with both redirects suppressed. -/
theorem c2_witness :
    movesOf (excludeFilter []
        (reduceChanges [moveEv "Alpha" "Beta" true,
          moveEv "Beta" "Gamma" true]).pages) =
      [("Alpha", "Gamma")] ∧
    ("Alpha", "Beta") ∉ movesOf (excludeFilter []
        (reduceChanges [moveEv "Alpha" "Beta" true,
          moveEv "Beta" "Gamma" true]).pages) ∧
    ("Beta", "Gamma") ∉ movesOf (excludeFilter []
        (reduceChanges [moveEv "Alpha" "Beta" true,
          moveEv "Beta" "Gamma" true]).pages) :=
  c2_move_chain_collapses "Alpha" "Beta" "Gamma" true true (by decide)
    (by decide) (by decide) (by decide)

/-! Claim C4: the XML minor-flag post-processing. -/

theorem isPrefixOf_append_drop (pat s : List Char)
    (hp : pat.isPrefixOf s = true) : s = pat ++ s.drop pat.length := by
  obtain ⟨t, rfl⟩ := List.isPrefixOf_iff_prefix.mp hp
  rw [List.drop_left]

theorem splitFirst_eq (pat : List Char) :
    ∀ s a b, splitFirst pat s = some (a, b) → s = a ++ pat ++ b := by
  intro s
  induction s with
  | nil =>
      intro a b h
      rw [splitFirst] at h
      split at h
      · next hp =>
          obtain ⟨t, ht⟩ := List.isPrefixOf_iff_prefix.mp hp
          simp only [Option.some.injEq, Prod.mk.injEq] at h
          obtain ⟨ha, hb⟩ := h
          subst ha
          subst hb
          simp at ht
          simp [ht.1]
      · cases h
  | cons c cs ih =>
      intro a b h
      rw [splitFirst] at h
      split at h
      · next hp =>
          simp only [Option.some.injEq, Prod.mk.injEq] at h
          obtain ⟨ha, hb⟩ := h
          subst ha
          subst hb
          simpa using isPrefixOf_append_drop pat (c :: cs) hp
      · next hp =>
          cases hsp : splitFirst pat cs with
          | none => rw [hsp] at h; cases h
          | some pr =>
              rw [hsp] at h
              simp only [Option.map_some', Option.some.injEq,
                Prod.mk.injEq] at h
              obtain ⟨ha, hb⟩ := h
              subst ha
              subst hb
              have := ih pr.1 pr.2 (by rw [hsp])
              simp [this]

theorem matchTitleBlock_eq (s chunk title rest : List Char)
    (h : matchTitleBlock s = some (chunk, title, rest)) :
    s = chunk ++ rest := by
  unfold matchTitleBlock at h
  split at h
  · next hp =>
      cases h1 : splitFirst "</title>".data (s.drop 7) with
      | none => rw [h1] at h; cases h
      | some pr1 =>
          obtain ⟨raw, s2⟩ := pr1
          rw [h1] at h
          dsimp only at h
          cases h2 : splitFirst "</revision>".data s2 with
          | none => rw [h2] at h; cases h
          | some pr2 =>
              obtain ⟨mid, b⟩ := pr2
              rw [h2] at h
              dsimp only at h
              simp only [Option.some.injEq, Prod.mk.injEq] at h
              obtain ⟨hc, _ht, hr⟩ := h
              have e1 : s = "<title>".data ++ s.drop 7 := by
                have := isPrefixOf_append_drop "<title>".data s hp
                simpa using this
              have e2 : s.drop 7 = raw ++ "</title>".data ++ s2 :=
                splitFirst_eq _ _ _ _ h1
              have e3 : s2 = mid ++ "</revision>".data ++ b :=
                splitFirst_eq _ _ _ _ h2
              subst hc
              subst hr
              rw [e1, e2, e3]
              simp
  · cases h

/-- If every pending entry is minor, the post-processing rewrites
nothing at all: each matched block is returned unchanged and the scan
reassembles the input. -/
theorem xmlFixGo_id (m : PageMap)
    (hm : ∀ k i, mapGet m k = some i → i.minor = true) :
    ∀ n s, xmlFixGo m n s = s := by
  intro n
  induction n with
  | zero => intro s; rfl
  | succ n ih =>
      intro s
      cases s with
      | nil => rfl
      | cons c cs =>
          show xmlFixGo m (n + 1) (c :: cs) = c :: cs
          unfold xmlFixGo
          cases hmt : matchTitleBlock (c :: cs) with
          | none => rw [ih]
          | some tri =>
              obtain ⟨chunk, title, rest⟩ := tri
              dsimp only
              have hcr : c :: cs = chunk ++ rest :=
                matchTitleBlock_eq _ _ _ _ hmt
              have hpc : processChunk m title chunk = chunk := by
                unfold processChunk
                cases hg : mapGet m (String.mk title) with
                | none => rfl
                | some i =>
                    dsimp only
                    rw [hm (String.mk title) i hg]
                    simp
              rw [hpc, ih, ← hcr]

/-- The pending map for the C4 scenario: page A is non-minor overall,
page K is minor overall. -/
def c4Pages : PageMap :=
  [("A", { oldTitle := none, minor := false }),
   ("K", { oldTitle := none, minor := true })]

/-- Export XML for the C4 scenario: page A has two revisions, each
carrying a minor marker; page K has one minor revision. -/
def c4Xml : String :=
  "<page><title> A </title><revision>r1 <minor /></revision><revision>r2<minor/></revision></page><page><title>K</title><revision>k<minor/></revision></page>"

/-- What the code actually produces on `c4Xml`: only the first minor
marker of A's first revision block is stripped; the marker in A's second
revision block survives, and K's block is untouched. -/
def c4Fixed : String :=
  "<page><title> A </title><revision>r1</revision><revision>r2<minor/></revision></page><page><title>K</title><revision>k<minor/></revision></page>"

/-- C4 counterexample: page A has pending minor=false and two
revisions each containing a `<minor/>` marker, yet the post-processing
leaves the marker of the second revision in place (the matched block
stops at the first `</revision>`, and the inner replace lacks the `g`
flag), so not every marker of that page is removed. -/
theorem c4_second_revision_marker_survives :
    xmlFix c4Pages c4Xml = c4Fixed ∧
    ((splitFirst "<title>K".data (xmlFix c4Pages c4Xml).data).map
      fun pr => (splitFirst "<minor".data pr.1).isSome) = some true := by
  decide

/-- C4 (amended): the post-processing removes, for each matched block —
from a `<title>` tag through the first following `</revision>` — whose
trimmed title has a pending entry with minor=false, only the first
`<minor/>` marker (with its leading whitespace) of that block; blocks
whose title has minor=true or no pending entry, and all text outside
matched blocks, are left unchanged.  Concretely: when every pending
entry is minor the whole XML is returned untouched, and on the two-page
document `c4Xml` exactly the first marker of non-minor page A is
stripped. -/
theorem c4_minor_strip :
    (∀ (m : PageMap) (s : String),
      (∀ k i, mapGet m k = some i → i.minor = true) → xmlFix m s = s) ∧
    xmlFix c4Pages c4Xml = c4Fixed := by
  constructor
  · intro m s hm
    unfold xmlFix
    rw [xmlFixGo_id m hm]
  · decide

/-- Witness for C4: a concrete all-minor pending map leaves a concrete
export document unchanged. -/
theorem c4_witness :
    xmlFix [("P", { oldTitle := none, minor := true })]
      "<title>P</title><revision><minor/></revision>" =
    "<title>P</title><revision><minor/></revision>" :=
  c4_minor_strip.1 [("P", { oldTitle := none, minor := true })]
    "<title>P</title><revision><minor/></revision>" (by
      intro k i h
      rw [mapGet] at h
      split at h
      · cases h
        rfl
      · rw [mapGet] at h
        cases h)

/-! Claim C9: apiQueryListAll on a first page without a query key. -/

/-- C9: when the first page of a paginated list fetch carries no
`query` key (and no API error), `apiQueryListAll` issues exactly one
request, never touches the remaining pages, and returns normally with
no accumulated results rather than raising an error. -/
theorem c9_no_query_terminates {α : Type} (merge : α → α → α)
    (p : QueryPage α) (ps : List (QueryPage α))
    (he : p.errors = []) (hq : p.query = none) :
    apiQueryListAll merge (p :: ps) =
      Except.ok ⟨1, none, p.curtimestamp⟩ := by
  unfold apiQueryListAll aqlaGo
  rw [he, hq]
  simp

/-- Witness for C9: a concrete first page with no query key — even one
carrying a continuation token — stops the fetch at one request with
empty results, ignoring a supplied second page. -/
theorem c9_witness :
    apiQueryListAll (fun a b => a ++ b)
      [⟨[], none, some "more", some "T1"⟩,
       ⟨[], some ["x"], none, some "T2"⟩] =
      Except.ok ⟨1, none, some "T1"⟩ :=
  c9_no_query_terminates (fun a b => a ++ b)
    ⟨[], none, some "more", some "T1"⟩
    [⟨[], some ["x"], none, some "T2"⟩] rfl rfl

/-! Claims C6 and C8: lemmas about the run pipeline. -/

theorem ebind_ok {ε α β : Type} (a : α) (f : α → Except ε β) :
    (Except.ok a >>= f) = f a := rfl

theorem ebind_error {ε α β : Type} (e : ε) (f : α → Except ε β) :
    ((Except.error e : Except ε α) >>= f) = Except.error e := rfl

theorem emap_ok {ε α β : Type} (f : α → β) (a : α) :
    Except.map f (Except.ok a : Except ε α) = Except.ok (f a) := rfl

theorem emap_error {ε α β : Type} (f : α → β) (e : ε) :
    Except.map f (Except.error e : Except ε α) = Except.error e := rfl

theorem apiM_ok {α : Type} (r : ApiResp α) (a : α → Bool) (v : α)
    (h : apiM r a = Except.ok v) :
    r.errors = [] ∧ a r.data = true ∧ v = r.data := by
  unfold apiM at h
  split at h
  · cases h
  · split at h
    · cases h
    · next h1 h2 =>
        refine ⟨List.length_eq_zero.mp (by omega), ?_, ?_⟩
        · simpa using h2
        · injection h with hv
          exact hv.symm

theorem apiLogin_ok (l : LoginEnv) (v : String)
    (h : apiLogin l = Except.ok v) :
    l.loginResp.errors = [] ∧ l.loginResp.data = "Success" ∧
      v = l.loginResp.data := by
  unfold apiLogin at h
  cases ht : apiM l.tokenResp (fun _ => true) with
  | error e => rw [ht, ebind_error] at h; cases h
  | ok tok =>
      rw [ht, ebind_ok] at h
      obtain ⟨he, ha, hv⟩ := apiM_ok _ _ _ h
      exact ⟨he, eq_of_beq ha, hv⟩

theorem destructure_ok {α : Type} (q : Option α) (a : α)
    (h : destructure q = Except.ok a) : q = some a := by
  cases q with
  | some b =>
      simp only [destructure, Except.ok.injEq] at h
      rw [h]
  | none => cases h

/-- A successful fetch phase took its `syncTime` from the result of the
recentchanges `apiQueryListAll` call — the `curtimestamp` of the last
page fetched. -/
theorem fetchPhase_ok (env : RunEnv)
    (f : List String × List ChangeEvent × Option String)
    (h : fetchPhase env = Except.ok f) :
    ∃ res, apiQueryListAll (fun a b => a ++ b) env.rcResp =
        Except.ok res ∧
      res.query = some f.2.1 ∧ f.2.2 = res.curtimestamp := by
  unfold fetchPhase at h
  cases h0 : srcLoginStep env with
  | error e => rw [h0, ebind_error] at h; cases h
  | ok u =>
      rw [h0, ebind_ok] at h
      cases h1 : apiQueryListAll (fun a b => a ++ b) env.excludedResp with
      | error e => rw [h1, ebind_error] at h; cases h
      | ok exq =>
          rw [h1, ebind_ok] at h
          cases h2 : destructure exq.query with
          | error e => rw [h2, ebind_error] at h; cases h
          | ok ts =>
              rw [h2, ebind_ok] at h
              cases h3 : apiQueryListAll (fun a b => a ++ b) env.rcResp with
              | error e => rw [h3, ebind_error] at h; cases h
              | ok rcq =>
                  rw [h3, ebind_ok] at h
                  cases h4 : destructure rcq.query with
                  | error e => rw [h4, ebind_error] at h; cases h
                  | ok cs =>
                      rw [h4, ebind_ok] at h
                      cases h
                      exact ⟨rcq, rfl, destructure_ok _ _ h4, rfl⟩

/-- A successful action phase reports the `syncTime` it was given as
the persisted watermark, on both the no-op path and the full path. -/
theorem actionPhase_watermark (env : RunEnv) (ex : List String)
    (chs : List ChangeEvent) (stime : Option String) (out : RunOutput)
    (h : actionPhase env ex chs stime = Except.ok out) :
    out.watermark = stime := by
  unfold actionPhase at h
  dsimp only at h
  split at h
  · cases h; rfl
  · cases hx : exportStep env (excludeFilter ex (reduceChanges chs).pages)
      with
    | error e => rw [hx, ebind_error] at h; cases h
    | ok xml =>
        rw [hx, ebind_ok] at h
        cases h2 : fileStep env (fileFilter ex (reduceChanges chs).fileIds)
          with
        | error e => rw [h2, ebind_error] at h; cases h
        | ok u =>
            rw [h2, ebind_ok] at h
            cases h3 : apiLogin env.tgtLogin with
            | error e => rw [h3, ebind_error] at h; cases h
            | ok lv =>
                rw [h3, ebind_ok] at h
                cases h4 : apiM env.csrfResp (fun _ => true) with
                | error e => rw [h4, ebind_error] at h; cases h
                | ok tok =>
                    rw [h4, ebind_ok] at h
                    cases h5 : importStep env xml with
                    | error e => rw [h5, ebind_error] at h; cases h
                    | ok imp =>
                        rw [h5, ebind_ok] at h
                        cases h
                        rfl

/-- C6: on every successful run — the nothing-to-do no-op path
included — the value persisted as the new watermark is exactly the
`curtimestamp` returned by the server in the same response as the final
change-log page fetch, not a locally generated time. -/
theorem c6_watermark_from_final_rc_fetch (env : RunEnv) (out : RunOutput)
    (h : runSync env = Except.ok out) :
    ∃ res, apiQueryListAll (fun a b => a ++ b) env.rcResp =
        Except.ok res ∧
      out.watermark = res.curtimestamp := by
  unfold runSync at h
  cases hf : fetchPhase env with
  | error e => rw [hf, ebind_error] at h; cases h
  | ok f =>
      rw [hf, ebind_ok] at h
      obtain ⟨res, hres, _hq, hct⟩ := fetchPhase_ok env f hf
      refine ⟨res, hres, ?_⟩
      rw [actionPhase_watermark env f.1 f.2.1 f.2.2 out h, hct]

/-- A concrete environment whose window holds no changes: the run takes
the no-op path. -/
def c6Env : RunEnv :=
  { srcLogin := none,
    excludedResp := [⟨[], some [], none, none⟩],
    rcResp := [⟨[], some [], none, some "2026-01-01T00:00:00Z"⟩],
    exportResp := ⟨[], "unused"⟩,
    fileUrlsResp := ⟨[], []⟩,
    tgtLogin := ⟨⟨[], "tok"⟩, ⟨[], "Success"⟩⟩,
    csrfResp := ⟨[], "csrf"⟩,
    moveResps := [],
    importResp := ⟨[], ()⟩ }

/-- Witness for C6: the no-op run on `c6Env` succeeds and persists the
server's curtimestamp from the recentchanges response. -/
theorem c6_witness :
    runSync c6Env =
      Except.ok ⟨some "2026-01-01T00:00:00Z", [], none, true⟩ ∧
    ∃ res, apiQueryListAll (fun a b => a ++ b) c6Env.rcResp =
        Except.ok res ∧
      (some "2026-01-01T00:00:00Z" : Option String) = res.curtimestamp :=
  ⟨by rfl,
    c6_watermark_from_final_rc_fetch c6Env
      ⟨some "2026-01-01T00:00:00Z", [], none, true⟩ (by rfl)⟩

/-! Claim C8: per-move failures are tolerated, other API failures are
fatal. -/

/-- The per-move success flags aside, the move loop records exactly the
move list it was given, whatever the server answered. -/
theorem moveLoop_fst (resps : List (ApiResp Unit))
    (moves : List (String × String)) :
    (moveLoop resps moves).map (fun p => (p.1, true)) =
      moves.map fun mv => (mv, true) := by
  induction moves generalizing resps with
  | nil => rfl
  | cons mv tl ih => simp [moveLoop, ih]

/-- A successful import step with a non-trivial result means the import
request was actually issued and came back clean. -/
theorem importStep_ok (env : RunEnv) (xml : String) (v : Option String)
    (h : importStep env xml = Except.ok v) (hv : v.isSome = true) :
    env.importResp.errors = [] ∧ xml ≠ "" := by
  unfold importStep at h
  split at h
  · next hx =>
      cases ha : apiM env.importResp (fun _ => true) with
      | error e => rw [ha] at h; cases h
      | ok u =>
          rw [ha] at h
          exact ⟨(apiM_ok _ _ _ ha).1, hx⟩
  · cases h
    cases hv

/-- A successful export step returning non-empty XML means the export
request was actually issued and came back clean. -/
theorem exportStep_ok (env : RunEnv) (pages : PageMap) (xml : String)
    (h : exportStep env pages = Except.ok xml) (hx : xml ≠ "") :
    env.exportResp.errors = [] := by
  unfold exportStep at h
  split at h
  · cases h
    exact absurd rfl hx
  · cases ha : apiM env.exportResp (fun _ => true) with
    | error e => rw [ha] at h; cases h
    | ok raw => exact (apiM_ok _ _ _ ha).1

/-- A successful non-no-op action phase got past the target login, so
the login response was clean and asserted `result = "Success"`. -/
theorem actionPhase_login (env : RunEnv) (ex : List String)
    (chs : List ChangeEvent) (stime : Option String) (out : RunOutput)
    (h : actionPhase env ex chs stime = Except.ok out)
    (hnoop : out.noop = false) :
    env.tgtLogin.loginResp.errors = [] ∧
      env.tgtLogin.loginResp.data = "Success" := by
  unfold actionPhase at h
  dsimp only at h
  split at h
  · cases h; cases hnoop
  · cases hx : exportStep env (excludeFilter ex (reduceChanges chs).pages)
      with
    | error e => rw [hx, ebind_error] at h; cases h
    | ok xml =>
        rw [hx, ebind_ok] at h
        cases h2 : fileStep env (fileFilter ex (reduceChanges chs).fileIds)
          with
        | error e => rw [h2, ebind_error] at h; cases h
        | ok u =>
            rw [h2, ebind_ok] at h
            cases h3 : apiLogin env.tgtLogin with
            | error e => rw [h3, ebind_error] at h; cases h
            | ok lv =>
                obtain ⟨he, hs, _⟩ := apiLogin_ok _ _ h3
                exact ⟨he, hs⟩

/-- A successful action phase that submitted an import got clean
responses from both the export and the import requests. -/
theorem actionPhase_import (env : RunEnv) (ex : List String)
    (chs : List ChangeEvent) (stime : Option String) (out : RunOutput)
    (h : actionPhase env ex chs stime = Except.ok out)
    (hi : out.importedXml.isSome = true) :
    env.exportResp.errors = [] ∧ env.importResp.errors = [] := by
  unfold actionPhase at h
  dsimp only at h
  split at h
  · cases h; cases hi
  · cases hx : exportStep env (excludeFilter ex (reduceChanges chs).pages)
      with
    | error e => rw [hx, ebind_error] at h; cases h
    | ok xml =>
        rw [hx, ebind_ok] at h
        cases h2 : fileStep env (fileFilter ex (reduceChanges chs).fileIds)
          with
        | error e => rw [h2, ebind_error] at h; cases h
        | ok u =>
            rw [h2, ebind_ok] at h
            cases h3 : apiLogin env.tgtLogin with
            | error e => rw [h3, ebind_error] at h; cases h
            | ok lv =>
                rw [h3, ebind_ok] at h
                cases h4 : apiM env.csrfResp (fun _ => true) with
                | error e => rw [h4, ebind_error] at h; cases h
                | ok tok =>
                    rw [h4, ebind_ok] at h
                    cases h5 : importStep env xml with
                    | error e => rw [h5, ebind_error] at h; cases h
                    | ok imp =>
                        rw [h5, ebind_ok] at h
                        cases h
                        obtain ⟨hie, hxe⟩ := importStep_ok env xml imp h5 hi
                        exact ⟨exportStep_ok env _ xml hx hxe, hie⟩

/-- Replacing the per-move responses changes nothing in the action
phase's outcome beyond the recorded per-move success flags: the same
moves are attempted, the import is still attempted, and the phase
succeeds or fails identically. -/
theorem actionPhase_moveResps (env : RunEnv)
    (r1 r2 : List (ApiResp Unit)) (ex : List String)
    (chs : List ChangeEvent) (stime : Option String) :
    Except.map stripFlags
        (actionPhase { env with moveResps := r1 } ex chs stime) =
      Except.map stripFlags
        (actionPhase { env with moveResps := r2 } ex chs stime) := by
  have e1 : ∀ r, exportStep { env with moveResps := r } = exportStep env :=
    fun r => rfl
  have e2 : ∀ r, fileStep { env with moveResps := r } = fileStep env :=
    fun r => rfl
  have e3 : ∀ r, ({ env with moveResps := r } : RunEnv).tgtLogin =
      env.tgtLogin := fun r => rfl
  have e4 : ∀ r, ({ env with moveResps := r } : RunEnv).csrfResp =
      env.csrfResp := fun r => rfl
  have e5 : ∀ r, importStep { env with moveResps := r } = importStep env :=
    fun r => rfl
  unfold actionPhase
  dsimp only
  simp only [e1, e2, e3, e4, e5]
  split
  · rfl
  · cases hx : exportStep env (excludeFilter ex (reduceChanges chs).pages)
      with
    | error e => simp only [ebind_error, emap_error]
    | ok xml =>
        simp only [ebind_ok]
        cases h2 : fileStep env (fileFilter ex (reduceChanges chs).fileIds)
          with
        | error e => simp only [ebind_error, emap_error]
        | ok u =>
            simp only [ebind_ok]
            cases h3 : apiLogin env.tgtLogin with
            | error e => simp only [ebind_error, emap_error]
            | ok lv =>
                simp only [ebind_ok]
                cases h4 : apiM env.csrfResp (fun _ => true) with
                | error e => simp only [ebind_error, emap_error]
                | ok tok =>
                    simp only [ebind_ok]
                    cases h5 : importStep env xml with
                    | error e => simp only [ebind_error, emap_error]
                    | ok imp =>
                        simp only [ebind_ok, emap_ok]
                        unfold stripFlags
                        dsimp only
                        rw [moveLoop_fst, moveLoop_fst]

/-- C8: (1) individual page-move failures are caught — replacing the
per-move responses never changes whether the run succeeds, which moves
are attempted, the imported XML, or the persisted watermark, only the
logged per-move success flags; (2) a successful run that reached the
target site had a clean login response asserting result "Success" — an
API-level login failure is fatal; (3) a successful run that submitted
an import had clean export and import responses — an API-level error in
either is fatal. -/
theorem c8_move_errors_tolerated_others_fatal :
    (∀ (env : RunEnv) (r1 r2 : List (ApiResp Unit)),
      Except.map stripFlags (runSync { env with moveResps := r1 }) =
        Except.map stripFlags (runSync { env with moveResps := r2 })) ∧
    (∀ (env : RunEnv) (out : RunOutput), runSync env = Except.ok out →
      out.noop = false →
      env.tgtLogin.loginResp.errors = [] ∧
        env.tgtLogin.loginResp.data = "Success") ∧
    (∀ (env : RunEnv) (out : RunOutput), runSync env = Except.ok out →
      out.importedXml.isSome = true →
      env.exportResp.errors = [] ∧ env.importResp.errors = []) := by
  refine ⟨?_, ?_, ?_⟩
  · intro env r1 r2
    unfold runSync
    have ef : ∀ r, fetchPhase { env with moveResps := r } = fetchPhase env :=
      fun r => rfl
    simp only [ef]
    cases hf : fetchPhase env with
    | error e => simp only [ebind_error, emap_error]
    | ok f =>
        simp only [ebind_ok]
        exact actionPhase_moveResps env r1 r2 f.1 f.2.1 f.2.2
  · intro env out h hnoop
    unfold runSync at h
    cases hf : fetchPhase env with
    | error e => rw [hf, ebind_error] at h; cases h
    | ok f =>
        rw [hf, ebind_ok] at h
        exact actionPhase_login env f.1 f.2.1 f.2.2 out h hnoop
  · intro env out h hi
    unfold runSync at h
    cases hf : fetchPhase env with
    | error e => rw [hf, ebind_error] at h; cases h
    | ok f =>
        rw [hf, ebind_ok] at h
        exact actionPhase_import env f.1 f.2.1 f.2.2 out h hi

/-- A concrete full-path environment: one non-minor edit to X, no
exclusions, clean responses everywhere; the single configured move
response is an API error. -/
def c8Env : RunEnv :=
  { srcLogin := none,
    excludedResp := [⟨[], some [], none, none⟩],
    rcResp := [⟨[], some [editEv "X" false], none,
      some "2026-03-03T00:00:00Z"⟩],
    exportResp := ⟨[], "<title>X</title><revision><minor/></revision>"⟩,
    fileUrlsResp := ⟨[], []⟩,
    tgtLogin := ⟨⟨[], "tok"⟩, ⟨[], "Success"⟩⟩,
    csrfResp := ⟨[], "csrf"⟩,
    moveResps := [⟨["boom"], ()⟩],
    importResp := ⟨[], ()⟩ }

/-- The output of the run on `c8Env`: the import is submitted and the
minor marker of the non-minor page X is stripped. -/
def c8Out : RunOutput :=
  ⟨some "2026-03-03T00:00:00Z", [],
    some "<title>X</title><revision></revision>", false⟩

/-- Witness for C8: on `c8Env`, swapping the erroring move response for
a clean one leaves the flag-stripped run result unchanged, and the
successful non-no-op importing run indeed had a clean Success login and
clean export/import responses. -/
theorem c8_witness :
    (Except.map stripFlags (runSync { c8Env with
        moveResps := [⟨["boom"], ()⟩] }) =
      Except.map stripFlags (runSync { c8Env with moveResps := [] })) ∧
    (c8Env.tgtLogin.loginResp.errors = [] ∧
      c8Env.tgtLogin.loginResp.data = "Success") ∧
    (c8Env.exportResp.errors = [] ∧ c8Env.importResp.errors = []) :=
  ⟨c8_move_errors_tolerated_others_fatal.1 c8Env [⟨["boom"], ()⟩] [],
    c8_move_errors_tolerated_others_fatal.2.1 c8Env c8Out (by rfl)
      (by rfl),
    c8_move_errors_tolerated_others_fatal.2.2 c8Env c8Out (by rfl)
      (by rfl)⟩

end LnnblogSync
